import Mathlib

/-
Verification development for the resilient streaming relay subsystem of the
solana-trading-apps repository.  The definitions below are shallow embeddings
of the Rust sources:

  * container relay  : cf-container/container_src_rust/src/{main,stream}.rs
  * fan-out broadcast: shared/laserstream/src/broadcaster.rs and
                       shared/websocket/src/server.rs
  * ingester         : shared/laserstream/src/stream.rs
  * client SDK       : shared/websocket/src/client.rs
-/

/-! ## Container relay: latest-state cache and ingestion loop -/

/-- Mirrors struct `LatestSlot` in container main.rs (slot, parent, status,
created_at_rfc3339). -/
structure LatestSlot where
  slot : Nat
  parent : Option Nat
  status : String
  created_at_rfc3339 : Option String
deriving DecidableEq

/-- One item yielded by the container gRPC stream in run_slot_stream:
an `Err(e)` item, an update whose oneof is a slot update (already decoded to
the `LatestSlot` fields the code constructs), or an update of another kind. -/
inductive SlotItem where
  | errItem
  | slotUpd (l : LatestSlot)
  | otherUpd
deriving DecidableEq

/-- One iteration of the `while let Some(msg) = stream.next()` body of
run_slot_stream (stream.rs lines 45-80): an `Err` item is logged and skipped,
a slot update unconditionally overwrites the cache, any other update leaves
the cache unchanged. -/
def ingestStep (cache : Option LatestSlot) : SlotItem → Option LatestSlot
  | SlotItem.errItem => cache
  | SlotItem.slotUpd l => some l
  | SlotItem.otherUpd => cache

/-- The whole run_slot_stream loop over a finite stream of items: it folds
`ingestStep` over the items and, once the stream ends, returns the error
message of stream.rs line 83 (the function always exits with `Err`). -/
def runSlotStreamC (cache : Option LatestSlot) (items : List SlotItem) :
    Option LatestSlot × String :=
  (items.foldl ingestStep cache, "LaserStream stream ended unexpectedly")

/-- Relay-instance state relevant to ensure_stream_started: the AtomicBool
`started` plus a history counter of how many ingester tasks were spawned. -/
structure RelayState where
  started : Bool
  spawns : Nat
deriving DecidableEq

/-- Mirrors ensure_stream_started (main.rs lines 88-101): atomically swap the
`started` flag to true; if it was already true return without spawning,
otherwise spawn the ingester task.  The returned Bool tells whether this call
performed the false-to-true transition (and hence spawned). -/
def ensure_stream_started (s : RelayState) : RelayState × Bool :=
  let was_started := s.started
  if was_started then ({ s with started := true }, false)
  else ({ started := true, spawns := s.spawns + 1 }, true)

/-- A sequence of n calls to ensure_stream_started on one relay instance,
returning the final state and the per-call spawn decisions in order. -/
def runCalls (s : RelayState) : Nat → RelayState × List Bool
  | 0 => (s, [])
  | n + 1 =>
      let r := ensure_stream_started s
      let q := runCalls r.1 n
      (q.1, r.2 :: q.2)

/-- Mirrors the GET /latest handler (main.rs lines 79-86): 200 plus the
serialized cached value when present, otherwise 404 with body "no data yet"
followed by a newline. -/
def latest (cache : Option LatestSlot) : Nat × (LatestSlot ⊕ String) :=
  match cache with
  | some v => (200, Sum.inl v)
  | none => (404, Sum.inr "no data yet\n")

/-! ## Fan-out broadcaster (broadcaster.rs / server.rs) -/

/-- A per-client outbound mailbox: whether the unbounded channel still has a
live receiver, and the messages enqueued so far. -/
structure Mailbox where
  isOpen : Bool
  msgs : List String
deriving DecidableEq

/-- `tx.send(msg.clone())`: enqueue succeeds exactly when the mailbox is still
open, returning the updated mailbox and the success flag. -/
def sendMsg (mb : Mailbox) (s : String) : Mailbox × Bool :=
  if mb.isOpen then ({ mb with msgs := mb.msgs ++ [s] }, true) else (mb, false)

/-- The read-locked iteration pass of broadcast (broadcaster.rs lines 145-149):
send the encoded message to every registered mailbox and collect the ids whose
send failed, without touching the registry itself. -/
def broadcastPass (s : String) : List (Nat × Mailbox) → List (Nat × Mailbox) × List Nat
  | [] => ([], [])
  | (i, mb) :: rest =>
      let r := sendMsg mb s
      let q := broadcastPass s rest
      ((i, r.1) :: q.1, if r.2 then q.2 else i :: q.2)

/-- The write-locked pruning after the pass (broadcaster.rs lines 152-159):
remove every collected id from the registry. -/
def removeIds (reg : List (Nat × Mailbox)) (ids : List Nat) : List (Nat × Mailbox) :=
  reg.filter (fun c => decide (c.1 ∉ ids))

/-- Mirrors WebSocketBroadcaster::broadcast / WebSocketServer::broadcast:
serialization happens once before the pass (`ser` is its outcome); on
serialization failure the function returns the error immediately with the
registry untouched, otherwise it runs the pass, prunes the failed ids and
returns success.  Result: (new registry, returned Ok?). -/
def broadcast (ser : Option String) (reg : List (Nat × Mailbox)) :
    List (Nat × Mailbox) × Bool :=
  match ser with
  | none => (reg, false)
  | some s =>
      let p := broadcastPass s reg
      (removeIds p.1 p.2, true)

/-! ## Reconnect backoff (stream.rs lines 47-59, client.rs lines 87-98) -/

/-- One failed-attempt step of the reconnect loop: increment the attempt
counter, then compute the sleep `2^(attempts.min(5))` seconds from the
incremented counter. -/
def reconnectStep (att : Nat) : Nat × Nat :=
  (att + 1, 2 ^ (min (att + 1) 5))

/-- The chain of reconnect steps starting from a freshly reset counter:
`delaySeq n` is (counter after the n-th step, delay slept before the n-th
reconnect attempt), n counted from 0. -/
def delaySeq : Nat → Nat × Nat
  | 0 => reconnectStep 0
  | n + 1 => reconnectStep (delaySeq n).1

/-- The backoff delay (in seconds) preceding the n-th reconnect attempt after
a failure, n = 0, 1, 2, ... -/
def backoffDelay (n : Nat) : Nat := (delaySeq n).2

/-! ## StreamManager ingester (shared/laserstream/src/stream.rs) -/

/-- One item of the subscription stream inside run_stream: a decoded message
(whose process_message call may fail) or a transport-level stream error. -/
inductive FrameResult where
  | okFrame (processOk : Bool)
  | failFrame
deriving DecidableEq

/-- Outcome of the streaming loop. -/
inductive RunOutcome where
  | completed
  | transportErr
deriving DecidableEq

/-- The `while let Some(message) = stream.next()` loop of run_stream (lines
121-136): a process_message error is logged and the loop continues; a stream
item error returns `Err` out of run_stream; stream end returns `Ok`. -/
def runStream : List FrameResult → RunOutcome
  | [] => RunOutcome.completed
  | FrameResult.okFrame _ :: rest => runStream rest
  | FrameResult.failFrame :: _ => RunOutcome.transportErr

/-- One connection attempt of run_stream: whether GeyserGrpcClient::connect
succeeds, whether subscribe_with_request succeeds, and the stream items read
while streaming. -/
structure ConnTrace where
  connectOk : Bool
  subscribeOk : Bool
  frames : List FrameResult
deriving DecidableEq

/-- run_stream's effect on the reconnect_attempts counter (lines 67-136):
connect failure returns `Err` leaving the counter untouched; on connect
success the counter is reset to zero (line 78) before subscribing, so a
subscribe failure still leaves it reset.  Returns (counter, whether the
Streaming phase was entered, loop outcome). -/
def runStreamA (att : Nat) (t : ConnTrace) : Nat × Bool × RunOutcome :=
  if t.connectOk then
    if t.subscribeOk then (0, true, runStream t.frames)
    else (0, false, RunOutcome.transportErr)
  else (att, false, RunOutcome.transportErr)

/-- Outcome of StreamManager::start. -/
inductive StartResult where
  | done
  | fatal
  | outOfSessions
deriving DecidableEq

/-- Mirrors StreamManager::start (lines 33-65) over a finite list of
connection attempts: loop run_stream; on `Ok` break with success; on `Err`
return the error if auto_reconnect is off or the attempt budget is exhausted,
otherwise increment the counter, sleep the backoff and retry. -/
def startA (auto : Bool) (maxA : Option Nat) : Nat → List ConnTrace → StartResult
  | _, [] => StartResult.outOfSessions
  | att, t :: rest =>
      let r := runStreamA att t
      match r.2.2 with
      | RunOutcome.completed => StartResult.done
      | RunOutcome.transportErr =>
          if auto then
            match maxA with
            | some m =>
                if m ≤ r.1 then StartResult.fatal
                else startA auto maxA (r.1 + 1) rest
            | none => startA auto maxA (r.1 + 1) rest
          else StartResult.fatal

/-! ## Reconnecting client SDK (shared/websocket/src/client.rs) -/

/-- The WebSocketClient fields that drive receive/reconnect. -/
structure ClientState where
  auto_reconnect : Bool
  reconnect_attempts : Nat
  max_reconnect_attempts : Option Nat
deriving DecidableEq

/-- The body of reconnect after the budget check (client.rs lines 94-109):
increment the counter, sleep the backoff, then try `connect_async` once (its
outcome is `co k`, where `k` indexes connection attempts); on success reset
the counter, on failure return the "Failed to reconnect" error with the
counter left incremented. -/
def reconnectGo (co : Nat → Bool) (st : ClientState) (k : Nat) :
    ClientState × Nat × Except String Unit :=
  let st1 := { st with reconnect_attempts := st.reconnect_attempts + 1 }
  if co k then ({ st1 with reconnect_attempts := 0 }, k + 1, Except.ok ())
  else (st1, k + 1, Except.error "Failed to reconnect")

/-- Mirrors WebSocketClient::reconnect (lines 87-110): if a max budget is set
and already spent, fail with "Max reconnect attempts reached"; otherwise make
one backoff-delayed connection attempt. -/
def reconnectC (co : Nat → Bool) (st : ClientState) (k : Nat) :
    ClientState × Nat × Except String Unit :=
  match st.max_reconnect_attempts with
  | some m =>
      if m ≤ st.reconnect_attempts then
        (st, k, Except.error "Max reconnect attempts reached")
      else reconnectGo co st k
  | none => reconnectGo co st k

/-- One websocket event observed by receive: a text frame (which may fail to
deserialize), a ping (whose pong reply send may itself fail), a close frame,
a transport error, end of stream, or any other frame kind (ignored by the
`_ => continue` arm). -/
inductive WsEvent where
  | text (decodeOk : Bool)
  | ping (pongOk : Bool)
  | close
  | wsErr
  | ended
  | otherFrame
deriving DecidableEq

/-- What receive returns to the caller: `msg` is `Ok(Some _)`, `ended` is
`Ok(None)`, `failed` is `Err` with the given reason; `pending` means the
modelled event list ran out while receive was still looping. -/
inductive RecvOutcome where
  | msg
  | ended
  | failed (reason : String)
  | pending
deriving DecidableEq

/-- Mirrors WebSocketClient::receive (lines 47-85) over a list of websocket
events (the frames of the current and any reconnected streams, concatenated):
text frames return the decoded message or a deserialize error; pings are
answered with a pong and skipped, but a failed pong send propagates out as an
error through the `?` at line 55; on close / transport error / stream end,
reconnect is attempted when auto_reconnect is set (a reconnect error is
propagated by `?`), otherwise close and stream end return `Ok(None)` and an
error returns `Err`. -/
def receive (co : Nat → Bool) :
    ClientState → List WsEvent → Nat → RecvOutcome × ClientState
  | st, [], _ => (RecvOutcome.pending, st)
  | st, WsEvent.text true :: _, _ => (RecvOutcome.msg, st)
  | st, WsEvent.text false :: _, _ => (RecvOutcome.failed "deserialize error", st)
  | st, WsEvent.ping true :: rest, k => receive co st rest k
  | st, WsEvent.ping false :: _, _ => (RecvOutcome.failed "pong send error", st)
  | st, WsEvent.otherFrame :: rest, k => receive co st rest k
  | st, WsEvent.close :: rest, k =>
      if st.auto_reconnect then
        match reconnectC co st k with
        | (st', k', Except.ok _) => receive co st' rest k'
        | (st', _, Except.error r) => (RecvOutcome.failed r, st')
      else (RecvOutcome.ended, st)
  | st, WsEvent.wsErr :: rest, k =>
      if st.auto_reconnect then
        match reconnectC co st k with
        | (st', k', Except.ok _) => receive co st' rest k'
        | (st', _, Except.error r) => (RecvOutcome.failed r, st')
      else (RecvOutcome.failed "websocket error", st)
  | st, WsEvent.ended :: rest, k =>
      if st.auto_reconnect then
        match reconnectC co st k with
        | (st', k', Except.ok _) => receive co st' rest k'
        | (st', _, Except.error r) => (RecvOutcome.failed r, st')
      else (RecvOutcome.ended, st)

/-- There is reconnect budget left: either no max is configured or the counter
is still below it. -/
abbrev budgetLeft (st : ClientState) : Prop :=
  match st.max_reconnect_attempts with
  | none => True
  | some m => st.reconnect_attempts < m

/-- The events on which receive enters the reconnect-or-return logic: a close
frame, a transport error, or the end of the stream. -/
def isDisruption : WsEvent → Bool
  | WsEvent.close => true
  | WsEvent.wsErr => true
  | WsEvent.ended => true
  | _ => false

/-! ## Client registry identifiers (handle_connection, both servers) -/

/-- Registry bookkeeping: the shared next_client_id counter, the ids currently
registered, and a history of every id ever issued (in order of issue). -/
structure RegState where
  nextId : Nat
  live : List Nat
  issued : List Nat
deriving DecidableEq

/-- A registry operation: a new connection registering, or a client being
removed (orderly disconnect or prune). -/
inductive RegOp where
  | register
  | unregister (id : Nat)
deriving DecidableEq

/-- Mirrors the id-assignment block of handle_connection (broadcaster.rs lines
96-104, server.rs lines 72-80): take the current next_id, increment it, insert
the client; unregister removes a client and leaves the counter alone. -/
def applyReg (s : RegState) : RegOp → RegState
  | RegOp.register =>
      { nextId := s.nextId + 1
        live := s.live ++ [s.nextId]
        issued := s.issued ++ [s.nextId] }
  | RegOp.unregister i => { s with live := s.live.filter (fun x => !(x == i)) }

/-- Run a sequence of registry operations from the initial registry state. -/
def runReg (ops : List RegOp) : RegState := ops.foldl applyReg ⟨0, [], []⟩

/-- A concrete three-client registry used to instantiate the broadcast
theorems: clients 0 and 2 have open mailboxes, client 1's mailbox is
closed. -/
def regW : List (Nat × Mailbox) :=
  [(0, ⟨true, []⟩), (1, ⟨false, []⟩), (2, ⟨true, []⟩)]

/-! ## Helper lemmas -/

/-- Once the started flag is true, further calls change nothing and spawn
nothing. -/
theorem runCalls_true (k : Nat) : ∀ n, runCalls ⟨true, k⟩ n = (⟨true, k⟩, List.replicate n false)
  | 0 => rfl
  | n + 1 => by
      simp [runCalls, ensure_stream_started, runCalls_true k n, List.replicate_succ]

/-- The counter after the n-th backoff step is n + 1. -/
theorem delaySeq_fst : ∀ n, (delaySeq n).1 = n + 1
  | 0 => rfl
  | n + 1 => by simp [delaySeq, reconnectStep, delaySeq_fst n]

/-- Closed form of the n-th backoff delay in exponent-saturated shape. -/
theorem backoffDelay_closed : ∀ n, backoffDelay n = 2 ^ (min (n + 1) 5)
  | 0 => rfl
  | n + 1 => by
      simp [backoffDelay, delaySeq, reconnectStep, delaySeq_fst n]

/-- Saturating the exponent at 5 is the same as capping the power at 32. -/
theorem two_pow_min_five (a : Nat) : 2 ^ min a 5 = min (2 ^ a) 32 := by
  rcases Nat.le_total a 5 with h | h
  · have h32 : 2 ^ a ≤ 32 := by
      calc 2 ^ a ≤ 2 ^ 5 := Nat.pow_le_pow_right (by norm_num) h
        _ = 32 := by norm_num
    rw [min_eq_left h, min_eq_left h32]
  · have h32 : (32 : Nat) ≤ 2 ^ a := by
      calc (32 : Nat) = 2 ^ 5 := by norm_num
        _ ≤ 2 ^ a := Nat.pow_le_pow_right (by norm_num) h
    rw [min_eq_right h, min_eq_right h32]
    norm_num

/-- The registry invariant: every issued id is below the counter and the
issued history is strictly increasing; it is preserved by any operation
sequence. -/
theorem runReg_invariant :
    ∀ (ops : List RegOp) (s : RegState),
      (∀ i ∈ s.issued, i < s.nextId) → List.Pairwise (· < ·) s.issued →
      (∀ i ∈ (ops.foldl applyReg s).issued, i < (ops.foldl applyReg s).nextId) ∧
        List.Pairwise (· < ·) (ops.foldl applyReg s).issued
  | [], s, hb, hp => ⟨hb, hp⟩
  | op :: ops, s, hb, hp => by
      rw [List.foldl_cons]
      cases op with
      | register =>
          refine runReg_invariant ops _ ?_ ?_
          · intro i hi
            rcases List.mem_append.mp hi with h | h
            · exact Nat.lt_succ_of_lt (hb i h)
            · simp only [List.mem_singleton] at h
              simp [applyReg, h]
          · refine List.pairwise_append.mpr ⟨hp, List.pairwise_singleton _ _, ?_⟩
            intro a ha b hbm
            simp only [List.mem_singleton] at hbm
            exact hbm ▸ hb a ha
      | unregister i => exact runReg_invariant ops _ hb hp

/-- Shape of a broadcast pass: every mailbox receives an enqueue attempt and
the failed ids are exactly the ids of the closed mailboxes, in registry
order. -/
theorem broadcastPass_eq (s : String) :
    ∀ reg : List (Nat × Mailbox),
      broadcastPass s reg =
        (reg.map (fun p => (p.1, (sendMsg p.2 s).1)),
         (reg.filter (fun p => !p.2.isOpen)).map Prod.fst)
  | [] => rfl
  | (i, mb) :: rest => by
      cases h : mb.isOpen <;>
        simp [broadcastPass, sendMsg, h, broadcastPass_eq s rest]

/-- Pruning commutes with the per-entry enqueue map, since that map preserves
ids. -/
theorem removeIds_map (s : String) (ids : List Nat) :
    ∀ reg : List (Nat × Mailbox),
      removeIds (reg.map (fun p => (p.1, (sendMsg p.2 s).1))) ids =
        (reg.filter (fun p => decide (p.1 ∉ ids))).map (fun p => (p.1, (sendMsg p.2 s).1))
  | [] => rfl
  | (i, mb) :: rest => by
      have ih := removeIds_map s ids rest
      simp only [removeIds] at ih ⊢
      simp only [List.map_cons, List.filter_cons]
      simp only [decide_not] at ih ⊢
      by_cases h : i ∈ ids
      · simp [h, ih]
      · simp [h, ih]

/-- Splitting a list by a Boolean predicate preserves total length. -/
theorem length_filter_split {α : Type} (p : α → Bool) :
    ∀ l : List α, (l.filter p).length + (l.filter (fun a => !(p a))).length = l.length
  | [] => rfl
  | x :: l => by
      have ih := length_filter_split p l
      cases h : p x <;> simp [List.filter_cons, h] <;> omega

/-- In a registry whose ids are distinct, entries are determined by their
id. -/
theorem nodup_fst_inj :
    ∀ (reg : List (Nat × Mailbox)), (reg.map Prod.fst).Nodup →
      ∀ p ∈ reg, ∀ q ∈ reg, p.1 = q.1 → p = q
  | [], _, p, hp, _, _, _ => absurd hp (List.not_mem_nil p)
  | x :: rest, hnd, p, hp, q, hq, hpq => by
      rw [List.map_cons, List.nodup_cons] at hnd
      rcases List.mem_cons.mp hp with rfl | hp1
      · rcases List.mem_cons.mp hq with rfl | hq1
        · rfl
        · exfalso
          apply hnd.1
          rw [hpq]
          exact List.mem_map_of_mem Prod.fst hq1
      · rcases List.mem_cons.mp hq with rfl | hq1
        · exfalso
          apply hnd.1
          rw [← hpq]
          exact List.mem_map_of_mem Prod.fst hp1
        · exact nodup_fst_inj rest hnd.2 p hp1 q hq1 hpq

/-- With distinct ids, the entries whose id equals a registered id j form
exactly the singleton of j's entry. -/
theorem filter_fst_eq_singleton :
    ∀ (reg : List (Nat × Mailbox)) (j : Nat) (mbJ : Mailbox),
      (reg.map Prod.fst).Nodup → (j, mbJ) ∈ reg →
      reg.filter (fun p => p.1 == j) = [(j, mbJ)]
  | [], _, _, _, hmem => absurd hmem (List.not_mem_nil _)
  | (a, mb) :: rest, j, mbJ, hnd, hmem => by
      rw [List.map_cons, List.nodup_cons] at hnd
      rcases List.mem_cons.mp hmem with h | h
      · injection h with ha hmb
        subst ha
        subst hmb
        have hrest : rest.filter (fun p => p.1 == j) = [] := by
          refine List.filter_eq_nil_iff.mpr ?_
          intro p hp
          simp only [Bool.not_eq_true, beq_eq_false_iff_ne, ne_eq]
          intro hc
          apply hnd.1
          rw [← hc]
          exact List.mem_map.mpr ⟨p, hp, rfl⟩
        simp [List.filter_cons, hrest]
      · have haj : ((a == j) : Bool) = false := by
          simp only [beq_eq_false_iff_ne, ne_eq]
          intro hc
          apply hnd.1
          rw [hc]
          exact List.mem_map.mpr ⟨(j, mbJ), h, rfl⟩
        simp only [List.filter_cons, haj, Bool.false_eq_true, if_false]
        exact filter_fst_eq_singleton rest j mbJ hnd.2 h

/-- With distinct ids, broadcasting a successfully serialized message prunes
exactly the closed mailboxes and enqueues into exactly the open ones. -/
theorem broadcast_prune_open (s : String) (reg : List (Nat × Mailbox))
    (hnd : (reg.map Prod.fst).Nodup) :
    (broadcast (some s) reg).1 =
      (reg.filter (fun p => p.2.isOpen)).map (fun p => (p.1, (sendMsg p.2 s).1)) := by
  have hpass := broadcastPass_eq s reg
  simp only [broadcast, hpass]
  rw [removeIds_map]
  congr 1
  refine List.filter_congr ?_
  intro p hp
  cases ho : p.2.isOpen
  · have hmem : p.1 ∈ (reg.filter (fun q => !q.2.isOpen)).map Prod.fst :=
      List.mem_map_of_mem Prod.fst (List.mem_filter.mpr ⟨hp, by simp [ho]⟩)
    simp [hmem]
  · have hnmem : p.1 ∉ (reg.filter (fun q => !q.2.isOpen)).map Prod.fst := by
      intro hc
      rcases List.mem_map.mp hc with ⟨q, hq, hq1⟩
      rcases List.mem_filter.mp hq with ⟨hqreg, hqcl⟩
      have hpq := nodup_fst_inj reg hnd p hp q hqreg hq1.symm
      rw [← hpq] at hqcl
      simp [ho] at hqcl
    simp [hnmem]

/-! ## Claim theorems -/

/-- C1, counterexample: with slot 100 cached, an incoming SlotUpdate with the
lower slot 99 does not leave the cache unchanged — the ingestion step
overwrites the cache with the slot-99 event. -/
theorem C1_counterexample :
    ingestStep (some ⟨100, none, "SlotConfirmed", none⟩)
        (SlotItem.slotUpd ⟨99, none, "SlotConfirmed", none⟩) =
      some ⟨99, none, "SlotConfirmed", none⟩ ∧
    (99 : Nat) < 100 ∧
    some (⟨99, none, "SlotConfirmed", none⟩ : LatestSlot) ≠
      some (⟨100, none, "SlotConfirmed", none⟩ : LatestSlot) :=
  ⟨rfl, by norm_num, by decide⟩

/-- C1, amended: the ingestion step replaces the cached value with the
incoming event for every SlotUpdate-class event, for every slot value
(there is no tie-break, so the cached slot is not monotone); per-item stream
errors and non-slot updates leave the cache unchanged. -/
theorem C1_cache_overwrite :
    (∀ (c : Option LatestSlot) (l : LatestSlot),
        ingestStep c (SlotItem.slotUpd l) = some l) ∧
    (∀ c : Option LatestSlot, ingestStep c SlotItem.errItem = c) ∧
    (∀ c : Option LatestSlot, ingestStep c SlotItem.otherUpd = c) :=
  ⟨fun _ _ => rfl, fun _ => rfl, fun _ => rfl⟩

/-- C3: starting from a relay whose started flag is false, a sequence of
n + 1 calls to the start operation spawns on exactly the first call (one
ingester task in total, flag ends true); moreover the flag is true after any
call, and a call spawns exactly when the flag was false before it. -/
theorem C3_start_once :
    (∀ n : Nat, runCalls ⟨false, 0⟩ (n + 1) =
        (⟨true, 1⟩, true :: List.replicate n false)) ∧
    (∀ s : RelayState, ((ensure_stream_started s).1).started = true) ∧
    (∀ s : RelayState, (ensure_stream_started s).2 = !s.started) := by
  refine ⟨?_, ?_, ?_⟩
  · intro n
    simp [runCalls, ensure_stream_started, runCalls_true]
  · intro s
    cases h : s.started <;> simp [ensure_stream_started, h]
  · intro s
    cases h : s.started <;> simp [ensure_stream_started, h]

/-- C4, counterexample: the delay before the first reconnect (n = 0) is
2 seconds, while the claim's formula min(2^0, cap) is at most 1 for every
cap (shown here at the code's cap 32). -/
theorem C4_counterexample :
    backoffDelay 0 = 2 ∧ min (2 ^ 0) 32 = 1 ∧ (2 : Nat) ≠ 1 :=
  ⟨by decide, by decide, by norm_num⟩

/-- C4, amended: the n-th backoff delay equals min(2^(n+1), 32) seconds
(the attempt counter is incremented before the delay is computed and the
exponent saturates at 5); the sequence is non-decreasing and capped at 32. -/
theorem C4_delay_formula :
    (∀ n, backoffDelay n = min (2 ^ (n + 1)) 32) ∧
    (∀ n m, n ≤ m → backoffDelay n ≤ backoffDelay m) ∧
    (∀ n, backoffDelay n ≤ 32) := by
  have hclosed : ∀ n, backoffDelay n = min (2 ^ (n + 1)) 32 := by
    intro n
    rw [backoffDelay_closed, two_pow_min_five]
  refine ⟨hclosed, ?_, ?_⟩
  · intro n m h
    rw [backoffDelay_closed, backoffDelay_closed]
    exact Nat.pow_le_pow_right (by norm_num) (min_le_min (by omega) (le_refl 5))
  · intro n
    rw [hclosed]
    exact min_le_right _ _

/-- C4 witness: the amended formula, monotonicity (at 1 ≤ 3) and the cap,
instantiated at concrete attempt indices. -/
theorem C4_delay_formula_witness :
    backoffDelay 1 = min (2 ^ 2) 32 ∧ (1 : Nat) ≤ 3 ∧
      backoffDelay 1 ≤ backoffDelay 3 ∧ backoffDelay 2 ≤ 32 :=
  ⟨C4_delay_formula.1 1, by norm_num, C4_delay_formula.2.1 1 3 (by norm_num),
    C4_delay_formula.2.2 2⟩

/-- C6, counterexample: on an empty cache the handler's 404 body is
"no data yet" followed by a newline, not the exact string "no data yet". -/
theorem C6_counterexample :
    latest none = (404, Sum.inr "no data yet\n") ∧ "no data yet\n" ≠ "no data yet" :=
  ⟨rfl, by decide⟩

/-- C6, amended: GET /latest returns 200 with the serialized cached event
when the cache holds a value, 404 with body "no data yet" plus a trailing
newline when it is empty, and no other status ever. -/
theorem C6_latest_handler :
    (∀ v : LatestSlot, latest (some v) = (200, Sum.inl v)) ∧
    latest none = (404, Sum.inr "no data yet\n") ∧
    (∀ c : Option LatestSlot, (latest c).1 = 200 ∨ (latest c).1 = 404) := by
  refine ⟨fun v => rfl, rfl, ?_⟩
  intro c
  cases c
  · exact Or.inr rfl
  · exact Or.inl rfl

/-- C9: over any sequence of registrations and removals from the initial
registry, the issued identifiers are strictly increasing in order of issue,
hence unique and never reused. -/
theorem C9_ids_strictly_increasing :
    ∀ ops : List RegOp,
      List.Pairwise (· < ·) (runReg ops).issued ∧ (runReg ops).issued.Nodup := by
  intro ops
  have h := runReg_invariant ops ⟨0, [], []⟩
    (fun i hi => absurd hi (List.not_mem_nil i)) List.Pairwise.nil
  simp only [runReg]
  exact ⟨h.2, h.2.imp Nat.ne_of_lt⟩

/-- C10: broadcast fails exactly on serialization failure, leaving the
registry untouched in that case; with a serialized message it returns success
regardless of enqueue failures, and (for distinct ids) the failures only
prune the closed mailboxes while every open mailbox gets the message. -/
theorem C10_broadcast_result :
    (∀ reg : List (Nat × Mailbox), broadcast none reg = (reg, false)) ∧
    (∀ (s : String) (reg : List (Nat × Mailbox)), (broadcast (some s) reg).2 = true) ∧
    (∀ (s : String) (reg : List (Nat × Mailbox)), (reg.map Prod.fst).Nodup →
      (broadcast (some s) reg).1 =
        (reg.filter (fun p => p.2.isOpen)).map (fun p => (p.1, (sendMsg p.2 s).1))) :=
  ⟨fun _ => rfl, fun _ _ => rfl, fun s reg hnd => broadcast_prune_open s reg hnd⟩

/-- C10 witness: the three parts of the broadcast result theorem at a
concrete two-client registry with one closed mailbox. -/
theorem C10_broadcast_result_witness :
    broadcast none [((0 : Nat), (⟨true, []⟩ : Mailbox))] =
      ([((0 : Nat), (⟨true, []⟩ : Mailbox))], false) ∧
    (broadcast (some "m") [((0 : Nat), (⟨true, []⟩ : Mailbox)), (1, ⟨false, []⟩)]).2 = true ∧
    (([((0 : Nat), (⟨true, []⟩ : Mailbox)), (1, ⟨false, []⟩)].map Prod.fst).Nodup) ∧
    (broadcast (some "m") [((0 : Nat), (⟨true, []⟩ : Mailbox)), (1, ⟨false, []⟩)]).1 =
      ([((0 : Nat), (⟨true, []⟩ : Mailbox)), (1, ⟨false, []⟩)].filter
          (fun p => p.2.isOpen)).map (fun p => (p.1, (sendMsg p.2 "m").1)) :=
  ⟨C10_broadcast_result.1 _, C10_broadcast_result.2.1 "m" _, by decide,
    C10_broadcast_result.2.2 "m" _ (by decide)⟩

/-- C2: broadcasting one serialized event to a registry with distinct ids in
which exactly client j's mailbox is closed succeeds, delivers the encoded
message to exactly the other K-1 clients (each open mailbox gains the same
encoded string), and removes exactly client j from the registry after the
pass. -/
theorem C2_broadcast_one_closed
    (s : String) (reg : List (Nat × Mailbox)) (j : Nat) (mbJ : Mailbox)
    (hnd : (reg.map Prod.fst).Nodup)
    (hmem : (j, mbJ) ∈ reg)
    (hclosed : mbJ.isOpen = false)
    (hopen : ∀ p ∈ reg, p.1 ≠ j → p.2.isOpen = true) :
    (broadcast (some s) reg).2 = true ∧
    (broadcast (some s) reg).1 =
      (reg.filter (fun p => !(p.1 == j))).map
        (fun p => (p.1, { p.2 with msgs := p.2.msgs ++ [s] })) ∧
    (broadcast (some s) reg).1.length + 1 = reg.length ∧
    (∀ q ∈ (broadcast (some s) reg).1, q.1 ≠ j) := by
  have hpr := broadcast_prune_open s reg hnd
  have hfil : reg.filter (fun p => p.2.isOpen) = reg.filter (fun p => !(p.1 == j)) := by
    refine List.filter_congr ?_
    intro p hp
    by_cases hj : p.1 = j
    · have hpj : p = (j, mbJ) := nodup_fst_inj reg hnd p hp (j, mbJ) hmem hj
      rw [hpj]
      simp [hclosed]
    · simp [hopen p hp hj, hj]
  have hmap : ∀ p ∈ reg.filter (fun p => !(p.1 == j)),
      (p.1, (sendMsg p.2 s).1) = (p.1, { p.2 with msgs := p.2.msgs ++ [s] }) := by
    intro p hp
    rcases List.mem_filter.mp hp with ⟨hpr2, hpj⟩
    have hj : p.1 ≠ j := by simpa using hpj
    simp [sendMsg, hopen p hpr2 hj]
  have h2 : (broadcast (some s) reg).1 =
      (reg.filter (fun p => !(p.1 == j))).map
        (fun p => (p.1, { p.2 with msgs := p.2.msgs ++ [s] })) := by
    rw [hpr, hfil]
    exact List.map_congr_left hmap
  have hsing : reg.filter (fun p => p.1 == j) = [(j, mbJ)] :=
    filter_fst_eq_singleton reg j mbJ hnd hmem
  have h3 : (broadcast (some s) reg).1.length + 1 = reg.length := by
    rw [h2, List.length_map]
    have hsplit := length_filter_split (fun p : Nat × Mailbox => p.1 == j) reg
    rw [hsing] at hsplit
    simp only [List.length_singleton] at hsplit
    omega
  have h4 : ∀ q ∈ (broadcast (some s) reg).1, q.1 ≠ j := by
    intro q hq
    rw [h2] at hq
    rcases List.mem_map.mp hq with ⟨p, hpf, hpe⟩
    rcases List.mem_filter.mp hpf with ⟨_, hpj⟩
    have hj : p.1 ≠ j := by simpa using hpj
    rw [← hpe]
    exact hj
  exact ⟨rfl, h2, h3, h4⟩

/-- C2 witness: the broadcast theorem at the concrete three-client registry
with client 1 closed: the pass succeeds, delivers to clients 0 and 2, and
removes client 1. -/
theorem C2_broadcast_one_closed_witness :
    ((regW.map Prod.fst).Nodup ∧ ((1 : Nat), (⟨false, []⟩ : Mailbox)) ∈ regW ∧
      (⟨false, []⟩ : Mailbox).isOpen = false ∧
      ∀ p ∈ regW, p.1 ≠ 1 → p.2.isOpen = true) ∧
    ((broadcast (some "u") regW).2 = true ∧
      (broadcast (some "u") regW).1 =
        (regW.filter (fun p => !(p.1 == 1))).map
          (fun p => (p.1, { p.2 with msgs := p.2.msgs ++ ["u"] })) ∧
      (broadcast (some "u") regW).1.length + 1 = regW.length ∧
      ∀ q ∈ (broadcast (some "u") regW).1, q.1 ≠ 1) :=
  ⟨⟨by decide, by decide, by decide, by decide⟩,
    C2_broadcast_one_closed "u" regW 1 ⟨false, []⟩ (by decide) (by decide)
      (by decide) (by decide)⟩

/-- reconnectGo only touches the attempt counter, never the auto_reconnect
flag. -/
theorem reconnectGo_preserves_auto (co : Nat → Bool) (st : ClientState) (k : Nat) :
    ((reconnectGo co st k).1).auto_reconnect = st.auto_reconnect := by
  cases h : co k <;> simp [reconnectGo, h]

/-- reconnectC only touches the attempt counter, never the auto_reconnect
flag. -/
theorem reconnectC_preserves_auto (co : Nat → Bool) (st : ClientState) (k : Nat) :
    ((reconnectC co st k).1).auto_reconnect = st.auto_reconnect := by
  cases hm : st.max_reconnect_attempts with
  | none => simp [reconnectC, hm, reconnectGo_preserves_auto]
  | some m =>
      by_cases hle : m ≤ st.reconnect_attempts
      · simp [reconnectC, hm, hle]
      · simp [reconnectC, hm, hle, reconnectGo_preserves_auto]

/-- With auto-reconnect enabled, receive never returns the stream-ended
outcome: every close / transport-error / stream-end event goes through the
reconnect logic instead. -/
theorem receive_auto_ne_ended (co : Nat → Bool) :
    ∀ (evs : List WsEvent) (st : ClientState) (k : Nat), st.auto_reconnect = true →
      (receive co st evs k).1 ≠ RecvOutcome.ended
  | [], st, k, ha => by simp [receive]
  | WsEvent.text b :: rest, st, k, ha => by cases b <;> simp [receive]
  | WsEvent.ping b :: rest, st, k, ha => by
      cases b
      · simp [receive]
      · simp only [receive]
        exact receive_auto_ne_ended co rest st k ha
  | WsEvent.otherFrame :: rest, st, k, ha => by
      simp only [receive]
      exact receive_auto_ne_ended co rest st k ha
  | WsEvent.close :: rest, st, k, ha => by
      rcases hr : reconnectC co st k with ⟨st', k', r⟩
      cases r with
      | ok u =>
          have ha' : st'.auto_reconnect = true := by
            have h2 := reconnectC_preserves_auto co st k
            rw [hr] at h2
            exact h2.trans ha
          simp only [receive, ha, if_true, hr]
          exact receive_auto_ne_ended co rest st' k' ha'
      | error r =>
          simp [receive, ha, hr]
  | WsEvent.wsErr :: rest, st, k, ha => by
      rcases hr : reconnectC co st k with ⟨st', k', r⟩
      cases r with
      | ok u =>
          have ha' : st'.auto_reconnect = true := by
            have h2 := reconnectC_preserves_auto co st k
            rw [hr] at h2
            exact h2.trans ha
          simp only [receive, ha, if_true, hr]
          exact receive_auto_ne_ended co rest st' k' ha'
      | error r =>
          simp [receive, ha, hr]
  | WsEvent.ended :: rest, st, k, ha => by
      rcases hr : reconnectC co st k with ⟨st', k', r⟩
      cases r with
      | ok u =>
          have ha' : st'.auto_reconnect = true := by
            have h2 := reconnectC_preserves_auto co st k
            rw [hr] at h2
            exact h2.trans ha
          simp only [receive, ha, if_true, hr]
          exact receive_auto_ne_ended co rest st' k' ha'
      | error r =>
          simp [receive, ha, hr]

/-- C5, counterexample: with auto-reconnect enabled and an unexhausted budget
(0 of 5 attempts used), a transport error whose single reconnect connection
attempt fails makes receive return the transport error "Failed to reconnect";
and with the budget exhausted, receive returns the error "Max reconnect
attempts reached", not the stream-ended outcome. -/
theorem C5_counterexample :
    receive (fun _ => false) ⟨true, 0, some 5⟩ [WsEvent.wsErr] 0 =
      (RecvOutcome.failed "Failed to reconnect", ⟨true, 1, some 5⟩) ∧
    (0 : Nat) < 5 ∧
    receive (fun _ => true) ⟨true, 5, some 5⟩ [WsEvent.close] 0 =
      (RecvOutcome.failed "Max reconnect attempts reached", ⟨true, 5, some 5⟩) ∧
    RecvOutcome.failed "Max reconnect attempts reached" ≠ RecvOutcome.ended :=
  ⟨rfl, by norm_num, rfl, by decide⟩

/-- C5, amended: with auto-reconnect enabled, receive makes one
backoff-delayed reconnect attempt for every close, transport-error or
stream-end event and continues the loop transparently when it succeeds
(resetting the counter); it returns the error "Max reconnect attempts
reached" when the budget is exhausted and the error "Failed to reconnect"
when the connection attempt itself fails; with auto-reconnect enabled the
stream-ended outcome `Ok(None)` is never returned — it arises only with
auto-reconnect disabled, on a close frame or stream end (a transport error
then returns the error); text frames are delivered to the caller, answered
pings are transparent, and a failed pong send surfaces as an error. -/
theorem C5_receive_reconnect :
    (∀ (co : Nat → Bool) st rest k m e, isDisruption e = true →
      st.auto_reconnect = true →
      st.max_reconnect_attempts = some m → m ≤ st.reconnect_attempts →
      receive co st (e :: rest) k =
        (RecvOutcome.failed "Max reconnect attempts reached", st)) ∧
    (∀ (co : Nat → Bool) st rest k e, isDisruption e = true →
      st.auto_reconnect = true → budgetLeft st → co k = true →
      receive co st (e :: rest) k =
        receive co { st with reconnect_attempts := 0 } rest (k + 1)) ∧
    (∀ (co : Nat → Bool) st rest k e, isDisruption e = true →
      st.auto_reconnect = true → budgetLeft st → co k = false →
      receive co st (e :: rest) k =
        (RecvOutcome.failed "Failed to reconnect",
          { st with reconnect_attempts := st.reconnect_attempts + 1 })) ∧
    (∀ (co : Nat → Bool) st rest k, st.auto_reconnect = false →
      receive co st (WsEvent.close :: rest) k = (RecvOutcome.ended, st)) ∧
    (∀ (co : Nat → Bool) st rest k, st.auto_reconnect = false →
      receive co st (WsEvent.ended :: rest) k = (RecvOutcome.ended, st)) ∧
    (∀ (co : Nat → Bool) st rest k, st.auto_reconnect = false →
      receive co st (WsEvent.wsErr :: rest) k =
        (RecvOutcome.failed "websocket error", st)) ∧
    (∀ (co : Nat → Bool) st evs k, st.auto_reconnect = true →
      (receive co st evs k).1 ≠ RecvOutcome.ended) ∧
    (∀ (co : Nat → Bool) st rest k,
      receive co st (WsEvent.text true :: rest) k = (RecvOutcome.msg, st)) ∧
    (∀ (co : Nat → Bool) st rest k,
      receive co st (WsEvent.ping true :: rest) k = receive co st rest k) ∧
    (∀ (co : Nat → Bool) st rest k,
      receive co st (WsEvent.ping false :: rest) k =
        (RecvOutcome.failed "pong send error", st)) := by
  refine ⟨?_, ?_, ?_, ?_, ?_, ?_, ?_, ?_, ?_, ?_⟩
  · intro co st rest k m e he ha hm hle
    have hrc : reconnectC co st k = (st, k, Except.error "Max reconnect attempts reached") := by
      simp [reconnectC, hm, hle]
    cases e with
    | text b => simp [isDisruption] at he
    | ping b => simp [isDisruption] at he
    | otherFrame => simp [isDisruption] at he
    | close => simp [receive, ha, hrc]
    | wsErr => simp [receive, ha, hrc]
    | ended => simp [receive, ha, hrc]
  · intro co st rest k e he ha hb hco
    have hgo : reconnectGo co st k =
        ({ st with reconnect_attempts := 0 }, k + 1, Except.ok ()) := by
      simp [reconnectGo, hco]
    have hrc : reconnectC co st k =
        ({ st with reconnect_attempts := 0 }, k + 1, Except.ok ()) := by
      cases hm : st.max_reconnect_attempts with
      | none => simp [reconnectC, hm, hgo]
      | some m =>
          have hlt : st.reconnect_attempts < m := by
            simpa [budgetLeft, hm] using hb
          simp [reconnectC, hm, Nat.not_le.mpr hlt, hgo]
    cases e with
    | text b => simp [isDisruption] at he
    | ping b => simp [isDisruption] at he
    | otherFrame => simp [isDisruption] at he
    | close => simp [receive, ha, hrc]
    | wsErr => simp [receive, ha, hrc]
    | ended => simp [receive, ha, hrc]
  · intro co st rest k e he ha hb hco
    have hgo : reconnectGo co st k =
        ({ st with reconnect_attempts := st.reconnect_attempts + 1 }, k + 1,
          Except.error "Failed to reconnect") := by
      simp [reconnectGo, hco]
    have hrc : reconnectC co st k =
        ({ st with reconnect_attempts := st.reconnect_attempts + 1 }, k + 1,
          Except.error "Failed to reconnect") := by
      cases hm : st.max_reconnect_attempts with
      | none => simp [reconnectC, hm, hgo]
      | some m =>
          have hlt : st.reconnect_attempts < m := by
            simpa [budgetLeft, hm] using hb
          simp [reconnectC, hm, Nat.not_le.mpr hlt, hgo]
    cases e with
    | text b => simp [isDisruption] at he
    | ping b => simp [isDisruption] at he
    | otherFrame => simp [isDisruption] at he
    | close => simp [receive, ha, hrc]
    | wsErr => simp [receive, ha, hrc]
    | ended => simp [receive, ha, hrc]
  · intro co st rest k ha
    simp [receive, ha]
  · intro co st rest k ha
    simp [receive, ha]
  · intro co st rest k ha
    simp [receive, ha]
  · intro co st evs k ha
    exact receive_auto_ne_ended co evs st k ha
  · intro co st rest k
    simp [receive]
  · intro co st rest k
    simp [receive]
  · intro co st rest k
    simp [receive]

/-- C5 witness: the amended receive behavior at concrete inputs: budget
exhausted (3 of 3) on a stream-end event, transparent continuation after a
successful reconnect on a transport error, a single failed reconnect on a
close frame, the no-auto-reconnect outcomes, and never-ended under
auto-reconnect. -/
theorem C5_receive_reconnect_witness :
    isDisruption WsEvent.ended = true ∧
    receive (fun _ => true) ⟨true, 3, some 3⟩ [WsEvent.ended] 0 =
      (RecvOutcome.failed "Max reconnect attempts reached", ⟨true, 3, some 3⟩) ∧
    budgetLeft (⟨true, 0, some 3⟩ : ClientState) ∧
    receive (fun _ => true) ⟨true, 0, some 3⟩ [WsEvent.wsErr, WsEvent.text true] 0 =
      receive (fun _ => true) ⟨true, 0, some 3⟩ [WsEvent.text true] 1 ∧
    receive (fun _ => false) ⟨true, 0, some 3⟩ [WsEvent.close] 0 =
      (RecvOutcome.failed "Failed to reconnect", ⟨true, 1, some 3⟩) ∧
    receive (fun _ => true) ⟨false, 0, none⟩ [WsEvent.close] 0 =
      (RecvOutcome.ended, ⟨false, 0, none⟩) ∧
    receive (fun _ => true) ⟨false, 0, none⟩ [WsEvent.ended] 0 =
      (RecvOutcome.ended, ⟨false, 0, none⟩) ∧
    receive (fun _ => true) ⟨false, 0, none⟩ [WsEvent.wsErr] 0 =
      (RecvOutcome.failed "websocket error", ⟨false, 0, none⟩) ∧
    (receive (fun _ => true) ⟨true, 0, none⟩ [WsEvent.ended] 0).1 ≠
      RecvOutcome.ended ∧
    receive (fun _ => true) ⟨false, 0, none⟩ [WsEvent.text true] 0 =
      (RecvOutcome.msg, ⟨false, 0, none⟩) ∧
    receive (fun _ => true) ⟨false, 0, none⟩ [WsEvent.ping true, WsEvent.text true] 0 =
      receive (fun _ => true) ⟨false, 0, none⟩ [WsEvent.text true] 0 ∧
    receive (fun _ => true) ⟨false, 0, none⟩ [WsEvent.ping false] 0 =
      (RecvOutcome.failed "pong send error", ⟨false, 0, none⟩) :=
  ⟨rfl,
    C5_receive_reconnect.1 (fun _ => true) ⟨true, 3, some 3⟩ [] 0 3 WsEvent.ended
      rfl rfl rfl (by norm_num),
    by decide,
    C5_receive_reconnect.2.1 (fun _ => true) ⟨true, 0, some 3⟩ [WsEvent.text true] 0
      WsEvent.wsErr rfl rfl (by decide) rfl,
    C5_receive_reconnect.2.2.1 (fun _ => false) ⟨true, 0, some 3⟩ [] 0
      WsEvent.close rfl rfl (by decide) rfl,
    C5_receive_reconnect.2.2.2.1 (fun _ => true) ⟨false, 0, none⟩ [] 0 rfl,
    C5_receive_reconnect.2.2.2.2.1 (fun _ => true) ⟨false, 0, none⟩ [] 0 rfl,
    C5_receive_reconnect.2.2.2.2.2.1 (fun _ => true) ⟨false, 0, none⟩ [] 0 rfl,
    C5_receive_reconnect.2.2.2.2.2.2.1 (fun _ => true) ⟨true, 0, none⟩
      [WsEvent.ended] 0 rfl,
    C5_receive_reconnect.2.2.2.2.2.2.2.1 (fun _ => true) ⟨false, 0, none⟩ [] 0,
    C5_receive_reconnect.2.2.2.2.2.2.2.2.1 (fun _ => true) ⟨false, 0, none⟩
      [WsEvent.text true] 0,
    C5_receive_reconnect.2.2.2.2.2.2.2.2.2 (fun _ => true) ⟨false, 0, none⟩ [] 0⟩

/-- C7, counterexample: in the container relay, when the upstream stream ends
(a transport-level failure), run_slot_stream returns a terminal error to the
spawning task instead of transitioning to a reconnect path — the failure
propagates past the ingester boundary. -/
theorem C7_counterexample :
    runSlotStreamC (some ⟨100, none, "SlotConfirmed", none⟩) [] =
      (some ⟨100, none, "SlotConfirmed", none⟩,
        "LaserStream stream ended unexpectedly") :=
  rfl

/-- C7, amended: in the StreamManager ingester, per-frame processing failures
are skipped without changing connection state, transport-level stream errors
(and only those) abort the streaming loop, and with auto-reconnect on and no
attempt cap the start loop never ends in a fatal error but retries the next
connection after each transport error; the container ingester likewise skips
per-item errors, but returns a terminal error to its spawning task when its
stream ends, without reconnecting. -/
theorem C7_error_propagation :
    (∀ rest, runStream (FrameResult.okFrame false :: rest) = runStream rest) ∧
    (∀ rest, runStream (FrameResult.failFrame :: rest) = RunOutcome.transportErr) ∧
    (∀ items, runStream items = RunOutcome.transportErr →
      FrameResult.failFrame ∈ items) ∧
    (∀ att sessions, startA true none att sessions ≠ StartResult.fatal) ∧
    (∀ att t rest, (runStreamA att t).2.2 = RunOutcome.transportErr →
      startA true none att (t :: rest) =
        startA true none ((runStreamA att t).1 + 1) rest) ∧
    (∀ c rest, runSlotStreamC c (SlotItem.errItem :: rest) = runSlotStreamC c rest) ∧
    (∀ c, (runSlotStreamC c []).2 = "LaserStream stream ended unexpectedly") := by
  refine ⟨fun rest => rfl, fun rest => rfl, ?_, ?_, ?_, fun c rest => rfl, fun c => rfl⟩
  · intro items
    induction items with
    | nil => intro h; simp [runStream] at h
    | cons x rest ih =>
        cases x with
        | okFrame b =>
            intro h
            simp only [runStream] at h
            exact List.mem_cons_of_mem _ (ih h)
        | failFrame => intro h; exact List.mem_cons_self _ _
  · intro att sessions
    induction sessions generalizing att with
    | nil => simp [startA]
    | cons t rest ih =>
        cases h : (runStreamA att t).2.2 with
        | completed => simp [startA, h]
        | transportErr =>
            simp only [startA, h]
            simp only [if_true]
            exact ih _
  · intro att t rest h
    simp [startA, h]

/-- C7 witness: the transport-error membership and retry parts of the
amended theorem, applied at a one-frame failing session. -/
theorem C7_error_propagation_witness :
    runStream [FrameResult.failFrame] = RunOutcome.transportErr ∧
    FrameResult.failFrame ∈ [FrameResult.failFrame] ∧
    (runStreamA 0 ⟨true, true, [FrameResult.failFrame]⟩).2.2 = RunOutcome.transportErr ∧
    startA true none 0 [⟨true, true, [FrameResult.failFrame]⟩] =
      startA true none ((runStreamA 0 ⟨true, true, [FrameResult.failFrame]⟩).1 + 1) [] :=
  ⟨rfl, C7_error_propagation.2.2.1 [FrameResult.failFrame] rfl, rfl,
    C7_error_propagation.2.2.2.2.1 0 ⟨true, true, [FrameResult.failFrame]⟩ [] rfl⟩

/-- C8, counterexample: a run whose connection succeeds but whose
subscription fails resets the attempt counter from 3 to 0 even though the
Streaming state (subscription established, event reading begun) was never
entered — the reset does not happen exactly on entering Streaming. -/
theorem C8_counterexample :
    runStreamA 3 ⟨true, false, []⟩ = (0, false, RunOutcome.transportErr) ∧
    (0 : Nat) ≠ 3 :=
  ⟨rfl, by norm_num⟩

/-- C8, amended: the attempt counter is reset to zero on every successful
connection (in the StreamManager before the subscription is even established;
in the WebSocket client when connect_async succeeds), is left unchanged by a
failed connection, and is incremented by one on each failed attempt before
the backoff delay, which is computed from the incremented value. -/
theorem C8_attempt_counter :
    (∀ att t, t.connectOk = true → (runStreamA att t).1 = 0) ∧
    (∀ att t, t.connectOk = false → (runStreamA att t).1 = att) ∧
    (∀ att, reconnectStep att = (att + 1, 2 ^ (min (att + 1) 5))) ∧
    (∀ (co : Nat → Bool) st k, co k = true →
      reconnectGo co st k =
        ({ st with reconnect_attempts := 0 }, k + 1, Except.ok ())) ∧
    (∀ (co : Nat → Bool) st k, co k = false →
      reconnectGo co st k =
        ({ st with reconnect_attempts := st.reconnect_attempts + 1 }, k + 1,
          Except.error "Failed to reconnect")) := by
  refine ⟨?_, ?_, fun att => rfl, ?_, ?_⟩
  · intro att t h
    cases hs : t.subscribeOk <;> simp [runStreamA, h, hs]
  · intro att t h
    simp [runStreamA, h]
  · intro co st k h
    simp [reconnectGo, h]
  · intro co st k h
    simp [reconnectGo, h]

/-- C8 witness: the amended counter behavior at concrete attempts: reset on
successful connect (7 to 0), no reset on failed connect, reset and increment
in the client reconnect. -/
theorem C8_attempt_counter_witness :
    (runStreamA 7 ⟨true, false, []⟩).1 = 0 ∧
    (runStreamA 7 ⟨false, true, []⟩).1 = 7 ∧
    reconnectGo (fun _ => true) ⟨true, 2, none⟩ 0 =
      (⟨true, 0, none⟩, 1, Except.ok ()) ∧
    reconnectGo (fun _ => false) ⟨true, 2, none⟩ 0 =
      (⟨true, 3, none⟩, 1, Except.error "Failed to reconnect") :=
  ⟨C8_attempt_counter.1 7 ⟨true, false, []⟩ rfl,
    C8_attempt_counter.2.1 7 ⟨false, true, []⟩ rfl,
    C8_attempt_counter.2.2.2.1 (fun _ => true) ⟨true, 2, none⟩ 0 rfl,
    C8_attempt_counter.2.2.2.2 (fun _ => false) ⟨true, 2, none⟩ 0 rfl⟩
